import Mathlib

/-!
Shallow embedding of the transaction-kernel composition core of the
aztec-packages repository, covering:

* the Call Context Tracker (`PrivateContext` in
  `noir-projects/aztec-nr/aztec/src/context/private_context.nr`),
* the Call-Stack Validator
  (`noir-projects/noir-protocol-circuits/crates/private-kernel-lib/src/common.nr`),
* the Kernel Composer (`KernelCircuitPublicInputsComposer` and
  `PrivateAccumulatedDataBuilder::split_to_public`).

Noir `Field` values are modelled as `Nat` (the embedded claims only compare
field elements for equality and against zero), `u32`/`u64` counters as `Nat`
(Noir integer overflow aborts the circuit; it does not wrap), bounded Noir
arrays / `BoundedVec`s as Lean `List`s, and a failed `assert` as `Option.none`
(a rejected transaction).  Hash functions and oracles that live in crates
outside the sources under study are passed as explicit function parameters:
the embedded operations never inspect their results beyond equality, so every
theorem below quantifies over them.
-/

namespace AztecKernel

/-- Embedding of `NoteHashContext` (`types/src/abis/note_hash.nr`): a per-transaction note
hash with its side-effect counter and, if it is nullified inside the same
transaction, the counter of the consuming nullifier. -/
structure NoteHashContext where
  value : Nat
  counter : Nat
  nullifier_counter : Nat
  deriving Repr, DecidableEq

/-- Embedding of `NoteHash` (`types/src/abis/note_hash.nr`): a per-call note hash. -/
structure NoteHash where
  value : Nat
  counter : Nat
  deriving Repr, DecidableEq

/-- Embedding of `Nullifier` (`types/src/abis/nullifier.nr`): value, back-reference to the
nullified note hash (zero when none), and side-effect counter. -/
structure Nullifier where
  value : Nat
  note_hash : Nat
  counter : Nat
  deriving Repr, DecidableEq

/-- Embedding of `SideEffect` (`types/src/abis/side_effect.nr`): value plus counter. -/
structure SideEffect where
  value : Nat
  counter : Nat
  deriving Repr, DecidableEq

/-- Embedding of `ReadRequest` (`types/src/abis/read_request.nr`): value plus counter. -/
structure ReadRequest where
  value : Nat
  counter : Nat
  deriving Repr, DecidableEq

/-- Embedding of `CallerContext` (`types/src/abis/caller_context.nr`). -/
structure CallerContext where
  msg_sender : Nat
  storage_contract_address : Nat
  deriving Repr, DecidableEq

/-- Modelled from the spec: the `Empty` trait instance for `CallerContext`
lives in the `types` crate (not among the sources under study); per the spec,
empty slots are all-zero padding, so a caller context is empty when both of
its addresses are zero. -/
def CallerContext.is_empty (c : CallerContext) : Bool :=
  c.msg_sender == 0 && c.storage_contract_address == 0

/-- Embedding of `CallRequest` (`types/src/abis/call_request.nr`). -/
structure CallRequest where
  hash : Nat
  caller_contract_address : Nat
  caller_context : CallerContext
  start_side_effect_counter : Nat
  end_side_effect_counter : Nat
  deriving Repr, DecidableEq

/-- Modelled from the spec: the `Empty` trait instance for `CallRequest` lives
in the `types` crate; per the spec an empty request is all-zero padding. -/
def CallRequest.is_empty (r : CallRequest) : Bool :=
  r.hash == 0 && r.caller_contract_address == 0 && r.caller_context.is_empty
    && r.start_side_effect_counter == 0 && r.end_side_effect_counter == 0

/-- Embedding of `CallContext` (`types/src/abis/call_context.nr`), restricted to the fields
read by the embedded operations. -/
structure CallContext where
  msg_sender : Nat
  storage_contract_address : Nat
  is_delegate_call : Bool
  is_static_call : Bool
  side_effect_counter : Nat
  deriving Repr, DecidableEq

/-- Embedding of `L2ToL1Message` (`types/src/messaging/l2_to_l1_message.nr`). -/
structure L2ToL1Message where
  recipient : Nat
  content : Nat
  deriving Repr, DecidableEq

/-- Modelled from the spec: `Empty` instance for `L2ToL1Message`; empty means
all-zero padding. -/
def L2ToL1Message.is_empty (m : L2ToL1Message) : Bool :=
  m.recipient == 0 && m.content == 0

/-- Modelled from the spec: `Empty` instance for per-call `NoteHash`. -/
def NoteHash.is_empty (n : NoteHash) : Bool :=
  n.value == 0 && n.counter == 0

/-- Modelled from the spec: `Empty` instance for `Nullifier`. -/
def Nullifier.is_empty (n : Nullifier) : Bool :=
  n.value == 0 && n.note_hash == 0 && n.counter == 0

/-- Modelled from the spec: `Empty` instance for `SideEffect`. -/
def SideEffect.is_empty (s : SideEffect) : Bool :=
  s.value == 0 && s.counter == 0

/-! ## Kernel Composer: `squash_transient_data`
(`KernelCircuitPublicInputsComposer::squash_transient_data`). -/

/-- Embeds `KernelCircuitPublicInputsComposer::squash_transient_data`.

The first step of the source calls
`verify_squashed_transient_note_hashes_and_nullifiers` from the external
`reset_kernel_lib` crate (not among the sources under study); its outcome is
abstracted as the boolean `verifyOk` so that every theorem quantifies over it.
The source then asserts, for every entry of the supplied final arrays, that
`note_hashes[i].nullifier_counter == 0` ("Unresolved transient note hash") and
`nullifiers[i].note_hash == 0` ("Unresolved transient nullifier"), and only
then propagates the supplied arrays into `public_inputs.end`.  A failed assert
is `none`; success returns the propagated `(new_note_hashes, new_nullifiers)`
output arrays. -/
def squash_transient_data (verifyOk : Bool) (note_hashes : List NoteHashContext)
    (nullifiers : List Nullifier) :
    Option (List NoteHashContext × List Nullifier) :=
  if verifyOk
      && note_hashes.all (fun n => n.nullifier_counter == 0)
      && nullifiers.all (fun n => n.note_hash == 0) then
    some (note_hashes, nullifiers)
  else
    none

/-- C1: after a successful squash step every propagated note hash has a zero
nullifier-counter and every propagated nullifier has a zero note-hash
back-reference; if any supplied final note hash has a non-zero
nullifier-counter, or any supplied final nullifier a non-zero back-reference,
the step fails (the transaction is rejected). -/
theorem squash_transient_data_clears_transients (verifyOk : Bool)
    (note_hashes : List NoteHashContext) (nullifiers : List Nullifier) :
    (∀ out, squash_transient_data verifyOk note_hashes nullifiers = some out →
        (∀ n ∈ out.1, n.nullifier_counter = 0) ∧ (∀ n ∈ out.2, n.note_hash = 0))
    ∧ (((∃ n ∈ note_hashes, n.nullifier_counter ≠ 0) ∨
          (∃ n ∈ nullifiers, n.note_hash ≠ 0)) →
        squash_transient_data verifyOk note_hashes nullifiers = none) := by
  constructor
  · intro out hout
    unfold squash_transient_data at hout
    split at hout
    · rename_i hcond
      simp only [Bool.and_eq_true, List.all_eq_true, beq_iff_eq] at hcond
      cases hout
      exact ⟨hcond.1.2, hcond.2⟩
    · exact absurd hout (by simp)
  · intro hbad
    unfold squash_transient_data
    split
    · rename_i hcond
      simp only [Bool.and_eq_true, List.all_eq_true, beq_iff_eq] at hcond
      rcases hbad with ⟨n, hn, hne⟩ | ⟨n, hn, hne⟩
      · exact absurd (hcond.1.2 n hn) hne
      · exact absurd (hcond.2 n hn) hne
    · rfl

/-- Witness for C1: a concrete run.  The failure direction fires on a final
note hash with `nullifier_counter = 3`; the success direction is exercised at
clean arrays. -/
theorem squash_transient_data_clears_transients_witness :
    squash_transient_data true
        [⟨5, 1, 3⟩] [⟨9, 0, 2⟩] = none
    ∧ (∀ n ∈ [(⟨5, 1, 0⟩ : NoteHashContext)], n.nullifier_counter = 0) := by
  constructor
  · exact (squash_transient_data_clears_transients true [⟨5, 1, 3⟩] [⟨9, 0, 2⟩]).2
      (Or.inl ⟨⟨5, 1, 3⟩, by decide⟩)
  · exact ((squash_transient_data_clears_transients true [⟨5, 1, 0⟩] []).1
      ([⟨5, 1, 0⟩], []) (by decide)).1

/-! ## Call-Stack Validator
(`private-kernel-lib/src/common.nr`). -/

/-- Embedding of `PrivateCircuitPublicInputs`
(`types/src/abis/private_circuit_public_inputs.nr`), restricted to the fields
read by the embedded operations. -/
structure PrivateCircuitPublicInputs where
  call_context : CallContext
  args_hash : Nat
  returns_hash : Nat
  new_note_hashes : List NoteHash
  new_nullifiers : List Nullifier
  private_call_stack_hashes : List Nat
  public_call_stack_hashes : List Nat
  new_l2_to_l1_msgs : List L2ToL1Message
  start_side_effect_counter : Nat
  end_side_effect_counter : Nat
  encrypted_log_preimages_length : Nat
  unencrypted_log_preimages_length : Nat
  deriving Repr, DecidableEq

/-- Embedding of `PrivateCallStackItem`
(`types/src/abis/private_call_stack_item.nr`), restricted to the fields read by
the embedded operations (`function_data` is reduced to its selector). -/
structure PrivateCallStackItem where
  contract_address : Nat
  function_data_selector : Nat
  public_inputs : PrivateCircuitPublicInputs
  deriving Repr, DecidableEq

/-- Embedding of `PrivateCallData`
(`types/src/abis/private_kernel/private_call_data.nr`), restricted to the
fields read by the embedded operations: the call-stack item and the declared
private/public call stacks.  The proof-, vk- and membership-witness fields are
consumed only by `contract_logic`, which is not embedded here. -/
structure PrivateCallData where
  call_stack_item : PrivateCallStackItem
  private_call_stack : List CallRequest
  public_call_stack : List CallRequest
  deriving Repr, DecidableEq

/-- Embeds `validate_call_against_request` (`common.nr`).  Each source
`assert` becomes a boolean conjunct; `itemHash` abstracts
`PrivateCallStackItem::hash`, which lives in the `types` crate. -/
def validate_call_against_request (itemHash : PrivateCallStackItem → Nat)
    (private_call : PrivateCallData) (request : CallRequest) : Bool :=
  let call_stack_item := private_call.call_stack_item
  let call_context := call_stack_item.public_inputs.call_context
  (request.hash == itemHash call_stack_item)
    && (if call_context.is_delegate_call then
          let caller_context := request.caller_context
          (!caller_context.is_empty)
            && (call_context.msg_sender == caller_context.msg_sender)
            && (call_context.storage_contract_address
                  == caller_context.storage_contract_address)
            && (!(call_stack_item.contract_address
                  == call_context.storage_contract_address))
        else
          (call_context.msg_sender == request.caller_contract_address)
            && (call_context.storage_contract_address
                  == call_stack_item.contract_address))

/-- C2: a call validates against its request only under the delegate/ordinary
call-context rules: with the delegate flag set, the callee's `msg_sender` and
storage contract address equal the caller context's, and the callee's own
contract address differs from its storage contract address; without it, the
callee's storage contract address equals its own contract address and its
`msg_sender` equals the caller's contract address. -/
theorem validate_call_against_request_context_rules
    (itemHash : PrivateCallStackItem → Nat) (private_call : PrivateCallData)
    (request : CallRequest)
    (hok : validate_call_against_request itemHash private_call request = true) :
    (private_call.call_stack_item.public_inputs.call_context.is_delegate_call = true →
      private_call.call_stack_item.public_inputs.call_context.msg_sender
          = request.caller_context.msg_sender
      ∧ private_call.call_stack_item.public_inputs.call_context.storage_contract_address
          = request.caller_context.storage_contract_address
      ∧ private_call.call_stack_item.contract_address
          ≠ private_call.call_stack_item.public_inputs.call_context.storage_contract_address)
    ∧ (private_call.call_stack_item.public_inputs.call_context.is_delegate_call = false →
      private_call.call_stack_item.public_inputs.call_context.storage_contract_address
          = private_call.call_stack_item.contract_address
      ∧ private_call.call_stack_item.public_inputs.call_context.msg_sender
          = request.caller_contract_address) := by
  constructor
  · intro hdel
    simp only [validate_call_against_request, hdel, if_true, Bool.and_eq_true,
      Bool.not_eq_true', beq_iff_eq, beq_eq_false_iff_ne, ne_eq] at hok
    exact ⟨hok.2.1.1.2, hok.2.1.2, hok.2.2⟩
  · intro hdel
    simp only [validate_call_against_request, hdel, Bool.false_eq_true, if_false,
      Bool.and_eq_true, beq_iff_eq] at hok
    exact ⟨hok.2.2, hok.2.1⟩

/-- Witness for C2: a concrete non-delegate call that validates, applied to
the theorem. -/
theorem validate_call_against_request_context_rules_witness :
    let item : PrivateCallStackItem :=
      { contract_address := 7, function_data_selector := 1,
        public_inputs :=
          { call_context :=
              { msg_sender := 3, storage_contract_address := 7,
                is_delegate_call := false, is_static_call := false,
                side_effect_counter := 0 },
            args_hash := 0, returns_hash := 0, new_note_hashes := [],
            new_nullifiers := [], private_call_stack_hashes := [],
            public_call_stack_hashes := [], new_l2_to_l1_msgs := [],
            start_side_effect_counter := 0, end_side_effect_counter := 0,
            encrypted_log_preimages_length := 4,
            unencrypted_log_preimages_length := 4 } }
    let pc : PrivateCallData :=
      { call_stack_item := item, private_call_stack := [], public_call_stack := [] }
    let req : CallRequest :=
      { hash := 0, caller_contract_address := 3,
        caller_context := { msg_sender := 0, storage_contract_address := 0 },
        start_side_effect_counter := 0, end_side_effect_counter := 0 }
    pc.call_stack_item.public_inputs.call_context.storage_contract_address
        = pc.call_stack_item.contract_address
    ∧ pc.call_stack_item.public_inputs.call_context.msg_sender
        = req.caller_contract_address := by
  intro item pc req
  exact (validate_call_against_request_context_rules (fun _ => 0) pc req
    (by decide)).2 (by decide)

/-- Modelled from the spec: `is_empty_array` of the `types` crate holds when
every slot of a (zero-padded) bounded array is empty. -/
def is_empty_array {α : Type} (isEmptyElem : α → Bool) (xs : List α) : Bool :=
  xs.all isEmptyElem

/-- Modelled from the spec: `array_length` of the `types` crate returns, for a
zero-padded bounded array, the number of entries before the first empty
slot. -/
def array_length {α : Type} (isEmptyElem : α → Bool) (xs : List α) : Nat :=
  (xs.takeWhile (fun e => !isEmptyElem e)).length

/-- Embeds `perform_static_call_checks` (`common.nr`).  The `4` compared
against the log-preimage lengths is the fixed minimum size of a log buffer
(it stores only the total length of the serialized logs), i.e. zero bytes of
actual log content. -/
def perform_static_call_checks (private_call : PrivateCallData) : Bool :=
  let public_inputs := private_call.call_stack_item.public_inputs
  let is_static_call := public_inputs.call_context.is_static_call
  if is_static_call then
    is_empty_array NoteHash.is_empty public_inputs.new_note_hashes
      && is_empty_array Nullifier.is_empty public_inputs.new_nullifiers
      && (array_length L2ToL1Message.is_empty public_inputs.new_l2_to_l1_msgs == 0)
      && (public_inputs.encrypted_log_preimages_length == 4)
      && (public_inputs.unencrypted_log_preimages_length == 4)
  else
    true

/-- C6: a static call passes the static-call checks only when its
new-note-hashes and new-nullifiers arrays hold nothing but empty entries, its
new-L2-to-L1-messages array has length zero, and its encrypted and
unencrypted log preimage buffers hold only the 4-field length header — i.e.
zero bytes of log content. -/
theorem perform_static_call_checks_static_rules (private_call : PrivateCallData)
    (hstatic : private_call.call_stack_item.public_inputs.call_context.is_static_call = true)
    (hok : perform_static_call_checks private_call = true) :
    (∀ n ∈ private_call.call_stack_item.public_inputs.new_note_hashes,
        n.is_empty = true)
    ∧ (∀ n ∈ private_call.call_stack_item.public_inputs.new_nullifiers,
        n.is_empty = true)
    ∧ array_length L2ToL1Message.is_empty
        private_call.call_stack_item.public_inputs.new_l2_to_l1_msgs = 0
    ∧ private_call.call_stack_item.public_inputs.encrypted_log_preimages_length = 4
    ∧ private_call.call_stack_item.public_inputs.unencrypted_log_preimages_length = 4 := by
  simp only [perform_static_call_checks, hstatic, if_true, Bool.and_eq_true,
    beq_iff_eq, is_empty_array, List.all_eq_true] at hok
  exact ⟨hok.1.1.1.1, hok.1.1.1.2, hok.1.1.2, hok.1.2, hok.2⟩

/-- Witness for C6: a static call with no effects passes, applied to the
theorem. -/
theorem perform_static_call_checks_static_rules_witness :
    let pc : PrivateCallData :=
      { call_stack_item :=
          { contract_address := 7, function_data_selector := 1,
            public_inputs :=
              { call_context :=
                  { msg_sender := 3, storage_contract_address := 7,
                    is_delegate_call := false, is_static_call := true,
                    side_effect_counter := 0 },
                args_hash := 0, returns_hash := 0,
                new_note_hashes := [⟨0, 0⟩, ⟨0, 0⟩],
                new_nullifiers := [⟨0, 0, 0⟩],
                private_call_stack_hashes := [], public_call_stack_hashes := [],
                new_l2_to_l1_msgs := [⟨0, 0⟩],
                start_side_effect_counter := 0, end_side_effect_counter := 0,
                encrypted_log_preimages_length := 4,
                unencrypted_log_preimages_length := 4 } },
        private_call_stack := [], public_call_stack := [] }
    array_length L2ToL1Message.is_empty
        pc.call_stack_item.public_inputs.new_l2_to_l1_msgs = 0
    ∧ pc.call_stack_item.public_inputs.encrypted_log_preimages_length = 4 := by
  intro pc
  have h := perform_static_call_checks_static_rules pc (by decide) (by decide)
  exact ⟨h.2.2.1, h.2.2.2.1⟩

/-- Embeds `is_valid_caller` (`common.nr`). -/
def is_valid_caller (request_from_stack : CallRequest)
    (fn_being_verified : PrivateCallData) : Bool :=
  let call_context := fn_being_verified.call_stack_item.public_inputs.call_context
  let valid_caller_context :=
    (request_from_stack.caller_context.msg_sender == call_context.msg_sender)
      && (request_from_stack.caller_context.storage_contract_address
            == call_context.storage_contract_address)
  (request_from_stack.caller_contract_address
      == fn_being_verified.call_stack_item.contract_address)
    && (request_from_stack.caller_context.is_empty || valid_caller_context)

/-- Embeds `validate_call_requests` (`common.nr`): the source iterates the two
length-`N` arrays in lockstep, which the `zip` reproduces. -/
def validate_call_requests (call_requests : List CallRequest) (hashes : List Nat)
    (private_call : PrivateCallData) : Bool :=
  (call_requests.zip hashes).all fun rh =>
    if rh.2 != 0 then
      (rh.1.hash == rh.2) && is_valid_caller rh.1 private_call
    else
      rh.1.is_empty

/-- C5: when the declared call-stack validation succeeds, then at every slot
`i` a non-zero stored hash forces the matching request to carry that hash, a
caller contract address equal to the verified call's contract address, and —
when the request's caller context is non-empty — a caller context whose
`msg_sender` and storage contract address equal the verified call's; a zero
stored hash forces the matching request to be entirely empty. -/
theorem validate_call_requests_slot_rules (call_requests : List CallRequest)
    (hashes : List Nat) (private_call : PrivateCallData)
    (hok : validate_call_requests call_requests hashes private_call = true) :
    ∀ i (hi : i < call_requests.length) (hh : i < hashes.length),
      (hashes[i] ≠ 0 →
        (call_requests[i]).hash = hashes[i]
        ∧ (call_requests[i]).caller_contract_address
            = private_call.call_stack_item.contract_address
        ∧ ((call_requests[i]).caller_context.is_empty = false →
            (call_requests[i]).caller_context.msg_sender
              = private_call.call_stack_item.public_inputs.call_context.msg_sender
            ∧ (call_requests[i]).caller_context.storage_contract_address
              = private_call.call_stack_item.public_inputs.call_context.storage_contract_address))
      ∧ (hashes[i] = 0 → (call_requests[i]).is_empty = true) := by
  intro i hi hh
  have hlen : i < (call_requests.zip hashes).length := by
    rw [List.length_zip]; omega
  have hmem : (call_requests[i], hashes[i]) ∈ call_requests.zip hashes := by
    have h := List.getElem_mem hlen
    rwa [List.getElem_zip] at h
  have hcond := List.all_eq_true.mp hok _ hmem
  constructor
  · intro hne
    have hc : (hashes[i] != 0) = true := by simpa [bne_iff_ne] using hne
    simp only [hc, if_true, Bool.and_eq_true, beq_iff_eq, is_valid_caller,
      Bool.or_eq_true] at hcond
    refine ⟨hcond.1, hcond.2.1, ?_⟩
    intro hnotempty
    rcases hcond.2.2 with hemp | hvalid
    · exact absurd hemp (by simp [hnotempty])
    · exact hvalid
  · intro hzero
    have hc : (hashes[i] != 0) = false := by simp [hzero]
    simp only [hc, Bool.false_eq_true, if_false] at hcond
    exact hcond

/-- Witness for C5: a two-slot stack with one genuine request and one empty
slot, applied to the theorem. -/
theorem validate_call_requests_slot_rules_witness :
    let pc : PrivateCallData :=
      { call_stack_item :=
          { contract_address := 7, function_data_selector := 1,
            public_inputs :=
              { call_context :=
                  { msg_sender := 3, storage_contract_address := 7,
                    is_delegate_call := false, is_static_call := false,
                    side_effect_counter := 0 },
                args_hash := 0, returns_hash := 0, new_note_hashes := [],
                new_nullifiers := [], private_call_stack_hashes := [],
                public_call_stack_hashes := [], new_l2_to_l1_msgs := [],
                start_side_effect_counter := 0, end_side_effect_counter := 0,
                encrypted_log_preimages_length := 4,
                unencrypted_log_preimages_length := 4 } },
        private_call_stack := [], public_call_stack := [] }
    let good : CallRequest :=
      { hash := 11, caller_contract_address := 7,
        caller_context := { msg_sender := 0, storage_contract_address := 0 },
        start_side_effect_counter := 1, end_side_effect_counter := 2 }
    let empty : CallRequest :=
      { hash := 0, caller_contract_address := 0,
        caller_context := { msg_sender := 0, storage_contract_address := 0 },
        start_side_effect_counter := 0, end_side_effect_counter := 0 }
    good.hash = 11 ∧ empty.is_empty = true := by
  intro pc good empty
  have h := validate_call_requests_slot_rules [good, empty] [11, 0] pc (by decide)
  exact ⟨(((h 0 (by decide) (by decide)).1) (by decide)).1,
    ((h 1 (by decide) (by decide)).2) (by decide)⟩

/-! ## Kernel Composer: `silo_note_hashes`
(`KernelCircuitPublicInputsComposer::silo_note_hashes`). -/

/-- The loop body of `silo_note_hashes`: starting at positional index `i`,
replace each non-zero note-hash value by
`compute_unique_siloed_note_hash(compute_note_hash_nonce(first_nullifier, i), value)`.
The two hash functions live in `types/src/hash.nr` and are abstracted as
`nonceFn` and `uniqueFn`. -/
def silo_note_hash_list (nonceFn uniqueFn : Nat → Nat → Nat)
    (first_nullifier_value : Nat) : Nat → List NoteHashContext → List NoteHashContext
  | _, [] => []
  | i, nh :: rest =>
      (if nh.value != 0 then
        { nh with value := uniqueFn (nonceFn first_nullifier_value i) nh.value }
      else nh) :: silo_note_hash_list nonceFn uniqueFn first_nullifier_value (i + 1) rest

/-- Embeds `KernelCircuitPublicInputsComposer::silo_note_hashes`: read the 0th
accumulated nullifier (`get_unchecked(0)` on the zero-padded storage, i.e. the
zero nullifier when the vector is empty), assert its value is non-zero, then
silo every non-zero note hash in place. -/
def silo_note_hashes (nonceFn uniqueFn : Nat → Nat → Nat)
    (new_nullifiers : List Nullifier) (note_hashes : List NoteHashContext) :
    Option (List NoteHashContext) :=
  if (new_nullifiers.headD ⟨0, 0, 0⟩).value == 0 then
    none
  else
    some (silo_note_hash_list nonceFn uniqueFn
      (new_nullifiers.headD ⟨0, 0, 0⟩).value 0 note_hashes)

theorem silo_note_hash_list_length (nonceFn uniqueFn : Nat → Nat → Nat)
    (v : Nat) : ∀ (i : Nat) (l : List NoteHashContext),
    (silo_note_hash_list nonceFn uniqueFn v i l).length = l.length := by
  intro i l
  induction l generalizing i with
  | nil => rfl
  | cons nh rest ih => simp [silo_note_hash_list, ih]

theorem silo_note_hash_list_get (nonceFn uniqueFn : Nat → Nat → Nat) (v : Nat) :
    ∀ (i : Nat) (l : List NoteHashContext) (j : Nat) (hj : j < l.length)
      (hj' : j < (silo_note_hash_list nonceFn uniqueFn v i l).length),
    (silo_note_hash_list nonceFn uniqueFn v i l).get ⟨j, hj'⟩ =
      if (l.get ⟨j, hj⟩).value ≠ 0 then
        { l.get ⟨j, hj⟩ with value := uniqueFn (nonceFn v (i + j)) (l.get ⟨j, hj⟩).value }
      else l.get ⟨j, hj⟩ := by
  intro i l
  induction l generalizing i with
  | nil => intro j hj; exact absurd hj (by simp)
  | cons nh rest ih =>
    intro j hj hj'
    cases j with
    | zero =>
      simp only [silo_note_hash_list, List.get, Nat.add_zero]
      by_cases hv : nh.value = 0
      · simp [hv]
      · simp [hv, bne_iff_ne]
    | succ k =>
      have hk : k < rest.length := by simpa using hj
      have hk' : k < (silo_note_hash_list nonceFn uniqueFn v (i + 1) rest).length := by
        rw [silo_note_hash_list_length]; exact hk
      have heq : (silo_note_hash_list nonceFn uniqueFn v i (nh :: rest)).get ⟨k + 1, hj'⟩
          = (silo_note_hash_list nonceFn uniqueFn v (i + 1) rest).get ⟨k, hk'⟩ := rfl
      rw [heq, ih (i + 1) k hk hk', show i + 1 + k = i + (k + 1) from by omega]
      rfl

/-- C3: the silo step fails when the 0th accumulated nullifier value is zero;
on success it returns the input note hashes where every entry with a non-zero
value has its value replaced by
`uniqueFn (nonceFn first_nullifier_value i) value` for its positional index
`i`, and every entry with a zero value is left unchanged. -/
theorem silo_note_hashes_spec (nonceFn uniqueFn : Nat → Nat → Nat)
    (new_nullifiers : List Nullifier) (note_hashes : List NoteHashContext) :
    ((new_nullifiers.headD ⟨0, 0, 0⟩).value = 0 →
      silo_note_hashes nonceFn uniqueFn new_nullifiers note_hashes = none)
    ∧ (∀ out, silo_note_hashes nonceFn uniqueFn new_nullifiers note_hashes = some out →
        (new_nullifiers.headD ⟨0, 0, 0⟩).value ≠ 0
        ∧ out.length = note_hashes.length
        ∧ ∀ (i : Nat) (hi : i < note_hashes.length) (hi' : i < out.length),
            out.get ⟨i, hi'⟩ =
              if (note_hashes.get ⟨i, hi⟩).value ≠ 0 then
                { note_hashes.get ⟨i, hi⟩ with
                  value := uniqueFn
                    (nonceFn (new_nullifiers.headD ⟨0, 0, 0⟩).value i)
                    (note_hashes.get ⟨i, hi⟩).value }
              else note_hashes.get ⟨i, hi⟩) := by
  constructor
  · intro hzero
    simp only [silo_note_hashes, hzero, beq_self_eq_true, if_true]
  · intro out hout
    unfold silo_note_hashes at hout
    split at hout
    · exact absurd hout (by simp)
    · rename_i hne
      simp only [beq_iff_eq] at hne
      cases hout
      refine ⟨hne, silo_note_hash_list_length nonceFn uniqueFn _ 0 note_hashes, ?_⟩
      intro i hi hi'
      simpa using silo_note_hash_list_get nonceFn uniqueFn
        (new_nullifiers.headD ⟨0, 0, 0⟩).value 0 note_hashes i hi hi'

/-- Witness for C3: a concrete silo run with `nonceFn = pairing`,
`uniqueFn = addition`, applied to the theorem in both directions. -/
theorem silo_note_hashes_spec_witness :
    silo_note_hashes (fun a b => a * 100 + b) (fun a b => a + b)
        [⟨0, 0, 0⟩] [⟨5, 1, 0⟩] = none
    ∧ (∀ out,
        silo_note_hashes (fun a b => a * 100 + b) (fun a b => a + b)
            [⟨9, 0, 1⟩] [⟨5, 1, 0⟩, ⟨0, 2, 0⟩] = some out →
        out.length = 2) := by
  constructor
  · exact (silo_note_hashes_spec (fun a b => a * 100 + b) (fun a b => a + b)
      [⟨0, 0, 0⟩] [⟨5, 1, 0⟩]).1 (by decide)
  · intro out hout
    exact ((silo_note_hashes_spec (fun a b => a * 100 + b) (fun a b => a + b)
      [⟨9, 0, 1⟩] [⟨5, 1, 0⟩, ⟨0, 2, 0⟩]).2 out hout).2.1

/-! ## Kernel Composer: `split_to_public`
(`types/src/abis/accumulated_data/private_accumulated_data_builder.nr`). -/

/-- Embedding of `Gas` (`types/src/abis/gas.nr`): data-availability and execution (l2)
gas units. -/
structure Gas where
  da_gas : Nat
  l2_gas : Nat
  deriving Repr, DecidableEq

/-- Embedding of `Gas::new`. -/
def Gas.new (da_gas l2_gas : Nat) : Gas := ⟨da_gas, l2_gas⟩

/-- Gas is additive componentwise. -/
instance : Add Gas := ⟨fun a b => ⟨a.da_gas + b.da_gas, a.l2_gas + b.l2_gas⟩⟩

/-- Modelled from the spec: `NoteHashContext::expose_to_public` lives in
`types/src/abis/note_hash.nr` (not among the sources under study); it drops
the transient `nullifier_counter` and zeroes the side-effect counter, as
pinned by the builder's own unit test `splits_revertible_and_non_revertible`,
which expects `NoteHashContext {value: 1, counter: 1, nullifier_counter: 20}`
to become `NoteHash {value: 1, counter: 0}`. -/
def NoteHashContext.expose_to_public (n : NoteHashContext) : NoteHash :=
  { value := n.value, counter := 0 }

/-- Embedding of `PrivateAccumulatedDataBuilder`
(`private_accumulated_data_builder.nr`), with `BoundedVec` storage modelled
as lists. -/
structure PrivateAccumulatedDataBuilder where
  new_note_hashes : List NoteHashContext
  new_nullifiers : List Nullifier
  new_l2_to_l1_msgs : List Nat
  encrypted_logs_hashes : List SideEffect
  unencrypted_logs_hashes : List SideEffect
  encrypted_log_preimages_length : Nat
  unencrypted_log_preimages_length : Nat
  private_call_stack : List CallRequest
  public_call_stack : List CallRequest
  deriving Repr, DecidableEq

/-- Embedding of `PublicAccumulatedData`
(`types/src/abis/accumulated_data/public_accumulated_data.nr`), restricted to
the fields written by `split_to_public`. -/
structure PublicAccumulatedData where
  new_note_hashes : List NoteHash
  new_nullifiers : List Nullifier
  new_l2_to_l1_msgs : List Nat
  encrypted_logs_hashes : List SideEffect
  unencrypted_logs_hashes : List SideEffect
  encrypted_log_preimages_length : Nat
  unencrypted_log_preimages_length : Nat
  public_call_stack : List CallRequest
  gas_used : Gas
  deriving Repr, DecidableEq

/-- Accumulator of the note-hash loop of `split_to_public`: the two builders'
note-hash vectors plus the da-gas added on each side. -/
structure NoteHashSplit where
  nonRev : List NoteHash
  rev : List NoteHash
  nonRevGas : Nat
  revGas : Nat
  deriving Repr, DecidableEq

/-- The note-hash loop of `split_to_public`: each entry is exposed to public
and pushed to the non-revertible side when its counter is strictly below
`min_counter`, to the revertible side otherwise; each non-empty exposed entry
adds `daGasPerField` to its side's da gas. -/
def split_note_hashes (daGasPerField min_counter : Nat) :
    List NoteHashContext → NoteHashSplit
  | [] => ⟨[], [], 0, 0⟩
  | nh :: rest =>
      let acc := split_note_hashes daGasPerField min_counter rest
      let public_note_hash := nh.expose_to_public
      let gas := if !public_note_hash.is_empty then daGasPerField else 0
      if nh.counter < min_counter then
        { acc with nonRev := public_note_hash :: acc.nonRev,
                   nonRevGas := gas + acc.nonRevGas }
      else
        { acc with rev := public_note_hash :: acc.rev, revGas := gas + acc.revGas }

/-- Accumulator of the nullifier loop of `split_to_public`. -/
structure NullifierSplit where
  nonRev : List Nullifier
  rev : List Nullifier
  nonRevGas : Nat
  revGas : Nat
  deriving Repr, DecidableEq

/-- The nullifier loop of `split_to_public`. -/
def split_nullifiers (daGasPerField min_counter : Nat) :
    List Nullifier → NullifierSplit
  | [] => ⟨[], [], 0, 0⟩
  | nf :: rest =>
      let acc := split_nullifiers daGasPerField min_counter rest
      let gas := if !nf.is_empty then daGasPerField else 0
      if nf.counter < min_counter then
        { acc with nonRev := nf :: acc.nonRev, nonRevGas := gas + acc.nonRevGas }
      else
        { acc with rev := nf :: acc.rev, revGas := gas + acc.revGas }

/-- The gasless partition loops of `split_to_public` (public call stack,
encrypted and unencrypted log hashes): below the threshold goes left
(non-revertible), at or above goes right (revertible). -/
def splitByCounter {α : Type} (counterOf : α → Nat) (min_counter : Nat) :
    List α → List α × List α
  | [] => ([], [])
  | x :: rest =>
      let acc := splitByCounter counterOf min_counter rest
      if counterOf x < min_counter then (x :: acc.1, acc.2) else (acc.1, x :: acc.2)

/-- Embeds `PrivateAccumulatedDataBuilder::split_to_public`.  The constants
`DA_BYTES_PER_FIELD` and `DA_GAS_PER_BYTE` and the value of
`Gas::tx_overhead()` live in the `types` crate and are passed as parameters;
the source computes `DA_GAS_PER_FIELD = DA_BYTES_PER_FIELD * DA_GAS_PER_BYTE`
exactly as done here.  Returns `(non-revertible, revertible)`. -/
def split_to_public (daBytesPerField daGasPerByte : Nat) (txOverhead : Gas)
    (self : PrivateAccumulatedDataBuilder)
    (min_revertible_side_effect_counter : Nat) (teardown_gas : Gas) :
    PublicAccumulatedData × PublicAccumulatedData :=
  let daGasPerField := daBytesPerField * daGasPerByte
  let nh := split_note_hashes daGasPerField min_revertible_side_effect_counter
    self.new_note_hashes
  let nf := split_nullifiers daGasPerField min_revertible_side_effect_counter
    self.new_nullifiers
  let stack := splitByCounter (fun r => r.start_side_effect_counter)
    min_revertible_side_effect_counter self.public_call_stack
  let enc := splitByCounter (fun s => s.counter)
    min_revertible_side_effect_counter self.encrypted_logs_hashes
  let unenc := splitByCounter (fun s => s.counter)
    min_revertible_side_effect_counter self.unencrypted_logs_hashes
  let revertible_da_gas_used :=
    teardown_gas.da_gas + nh.revGas + nf.revGas
      + daGasPerByte * (self.encrypted_log_preimages_length
          + self.unencrypted_log_preimages_length)
  let revertible_l2_gas_used := teardown_gas.l2_gas
  let non_revertible_da_gas_used := nh.nonRevGas + nf.nonRevGas
  let non_revertible_l2_gas_used := 0
  ({ new_note_hashes := nh.nonRev,
     new_nullifiers := nf.nonRev,
     new_l2_to_l1_msgs := [],
     encrypted_logs_hashes := enc.1,
     unencrypted_logs_hashes := unenc.1,
     encrypted_log_preimages_length := 0,
     unencrypted_log_preimages_length := 0,
     public_call_stack := stack.1,
     gas_used := txOverhead
       + Gas.new non_revertible_da_gas_used non_revertible_l2_gas_used },
   { new_note_hashes := nh.rev,
     new_nullifiers := nf.rev,
     new_l2_to_l1_msgs := self.new_l2_to_l1_msgs,
     encrypted_logs_hashes := enc.2,
     unencrypted_logs_hashes := unenc.2,
     encrypted_log_preimages_length := self.encrypted_log_preimages_length,
     unencrypted_log_preimages_length := self.unencrypted_log_preimages_length,
     public_call_stack := stack.2,
     gas_used := Gas.new revertible_da_gas_used revertible_l2_gas_used })

theorem split_note_hashes_nonRev (d m : Nat) (l : List NoteHashContext) :
    (split_note_hashes d m l).nonRev
      = (l.filter (fun n => n.counter < m)).map NoteHashContext.expose_to_public := by
  induction l with
  | nil => rfl
  | cons nh rest ih =>
    by_cases h : nh.counter < m <;>
      simp [split_note_hashes, h, ih, List.filter_cons]

theorem split_note_hashes_rev (d m : Nat) (l : List NoteHashContext) :
    (split_note_hashes d m l).rev
      = (l.filter (fun n => m ≤ n.counter)).map NoteHashContext.expose_to_public := by
  induction l with
  | nil => rfl
  | cons nh rest ih =>
    by_cases h : nh.counter < m <;>
      simp [split_note_hashes, h, ih, List.filter_cons, Nat.not_lt, Nat.not_le,
        Nat.lt_of_not_le, Nat.le_of_not_lt]

theorem split_nullifiers_nonRev (d m : Nat) (l : List Nullifier) :
    (split_nullifiers d m l).nonRev = l.filter (fun n => n.counter < m) := by
  induction l with
  | nil => rfl
  | cons nf rest ih =>
    by_cases h : nf.counter < m <;>
      simp [split_nullifiers, h, ih, List.filter_cons]

theorem split_nullifiers_rev (d m : Nat) (l : List Nullifier) :
    (split_nullifiers d m l).rev = l.filter (fun n => m ≤ n.counter) := by
  induction l with
  | nil => rfl
  | cons nf rest ih =>
    by_cases h : nf.counter < m
    · simp [split_nullifiers, h, ih, List.filter_cons, Nat.not_le.mpr h]
    · simp [split_nullifiers, h, ih, List.filter_cons, Nat.le_of_not_lt h]

theorem splitByCounter_fst {α : Type} (c : α → Nat) (m : Nat) (l : List α) :
    (splitByCounter c m l).1 = l.filter (fun x => c x < m) := by
  induction l with
  | nil => rfl
  | cons x rest ih =>
    by_cases h : c x < m <;> simp [splitByCounter, h, ih, List.filter_cons]

theorem splitByCounter_snd {α : Type} (c : α → Nat) (m : Nat) (l : List α) :
    (splitByCounter c m l).2 = l.filter (fun x => m ≤ c x) := by
  induction l with
  | nil => rfl
  | cons x rest ih =>
    by_cases h : c x < m
    · simp [splitByCounter, h, ih, List.filter_cons, Nat.not_le.mpr h]
    · simp [splitByCounter, h, ih, List.filter_cons, Nat.le_of_not_lt h]

/-- C4: `split_to_public` partitions every side-effect array by comparing its
counter (start counter for call-stack items) against
`min_revertible_side_effect_counter` — strictly below goes to the
non-revertible output, at or above to the revertible output, preserving
order — and the revertible gas total starts from the full teardown gas, so it
equals the teardown da-gas plus the per-side-effect da additions in its
da component and exactly the teardown l2-gas in its l2 component. -/
theorem split_to_public_partitions (daBytesPerField daGasPerByte : Nat)
    (txOverhead : Gas) (self : PrivateAccumulatedDataBuilder)
    (min_counter : Nat) (teardown_gas : Gas) :
    let result := split_to_public daBytesPerField daGasPerByte txOverhead self
      min_counter teardown_gas
    (result.1.new_note_hashes
        = (self.new_note_hashes.filter (fun n => n.counter < min_counter)).map
            NoteHashContext.expose_to_public
      ∧ result.2.new_note_hashes
        = (self.new_note_hashes.filter (fun n => min_counter ≤ n.counter)).map
            NoteHashContext.expose_to_public)
    ∧ (result.1.new_nullifiers
        = self.new_nullifiers.filter (fun n => n.counter < min_counter)
      ∧ result.2.new_nullifiers
        = self.new_nullifiers.filter (fun n => min_counter ≤ n.counter))
    ∧ (result.1.public_call_stack
        = self.public_call_stack.filter
            (fun r => r.start_side_effect_counter < min_counter)
      ∧ result.2.public_call_stack
        = self.public_call_stack.filter
            (fun r => min_counter ≤ r.start_side_effect_counter))
    ∧ (result.1.encrypted_logs_hashes
        = self.encrypted_logs_hashes.filter (fun s => s.counter < min_counter)
      ∧ result.2.encrypted_logs_hashes
        = self.encrypted_logs_hashes.filter (fun s => min_counter ≤ s.counter))
    ∧ (result.1.unencrypted_logs_hashes
        = self.unencrypted_logs_hashes.filter (fun s => s.counter < min_counter)
      ∧ result.2.unencrypted_logs_hashes
        = self.unencrypted_logs_hashes.filter (fun s => min_counter ≤ s.counter))
    ∧ ∃ extra_da_gas,
        result.2.gas_used
          = Gas.new (teardown_gas.da_gas + extra_da_gas) teardown_gas.l2_gas := by
  refine ⟨⟨?_, ?_⟩, ⟨?_, ?_⟩, ⟨?_, ?_⟩, ⟨?_, ?_⟩, ⟨?_, ?_⟩, ?_⟩
  · exact split_note_hashes_nonRev _ _ _
  · exact split_note_hashes_rev _ _ _
  · exact split_nullifiers_nonRev _ _ _
  · exact split_nullifiers_rev _ _ _
  · exact splitByCounter_fst _ _ _
  · exact splitByCounter_snd _ _ _
  · exact splitByCounter_fst _ _ _
  · exact splitByCounter_snd _ _ _
  · exact splitByCounter_fst _ _ _
  · exact splitByCounter_snd _ _ _
  · refine ⟨(split_note_hashes (daBytesPerField * daGasPerByte) min_counter
        self.new_note_hashes).revGas
      + (split_nullifiers (daBytesPerField * daGasPerByte) min_counter
          self.new_nullifiers).revGas
      + daGasPerByte * (self.encrypted_log_preimages_length
          + self.unencrypted_log_preimages_length), ?_⟩
    show Gas.new _ _ = Gas.new _ _
    unfold Gas.new
    congr 1
    omega

/-! ## Call Context Tracker
(`aztec-nr/aztec/src/context/private_context.nr`). -/

/-- Embedding of `NullifierKeys` (`aztec-nr` oracle result): key material for one
account. -/
structure NullifierKeys where
  account : Nat
  master_nullifier_public_key : Nat
  app_nullifier_secret_key : Nat
  deriving Repr, DecidableEq

/-- Embedding of `NullifierKeyValidationRequest`
(`types/src/abis/nullifier_key_validation_request.nr`). -/
structure NullifierKeyValidationRequest where
  master_nullifier_public_key : Nat
  app_nullifier_secret_key : Nat
  deriving Repr, DecidableEq

/-- Embedding of `PrivateContext` (`private_context.nr`), restricted to the fields read or
written by the embedded operations; `call_context` is the `inputs.call_context`
field of the source and the `BoundedVec`s are modelled as lists. -/
structure PrivateContext where
  call_context : CallContext
  side_effect_counter : Nat
  min_revertible_side_effect_counter : Nat
  note_hash_read_requests : List SideEffect
  nullifier_read_requests : List ReadRequest
  nullifier_key_validation_requests : List NullifierKeyValidationRequest
  new_note_hashes : List NoteHash
  new_nullifiers : List Nullifier
  private_call_stack_hashes : List Nat
  public_call_stack_hashes : List Nat
  encrypted_logs_hashes : List SideEffect
  unencrypted_logs_hashes : List SideEffect
  nullifier_key : Option NullifierKeys
  deriving Repr, DecidableEq

/-- Embedding of `PrivateContext::push_new_note_hash`. -/
def PrivateContext.push_new_note_hash (self : PrivateContext) (note_hash : Nat) :
    PrivateContext :=
  { self with
      new_note_hashes := self.new_note_hashes
        ++ [{ value := note_hash, counter := self.side_effect_counter }],
      side_effect_counter := self.side_effect_counter + 1 }

/-- Embedding of `PrivateContext::push_new_nullifier`. -/
def PrivateContext.push_new_nullifier (self : PrivateContext)
    (nullifier nullified_note_hash : Nat) : PrivateContext :=
  { self with
      new_nullifiers := self.new_nullifiers
        ++ [{ value := nullifier, note_hash := nullified_note_hash,
              counter := self.side_effect_counter }],
      side_effect_counter := self.side_effect_counter + 1 }

/-- Embedding of `PrivateContext::push_note_hash_read_request`. -/
def PrivateContext.push_note_hash_read_request (self : PrivateContext)
    (note_hash : Nat) : PrivateContext :=
  { self with
      note_hash_read_requests := self.note_hash_read_requests
        ++ [{ value := note_hash, counter := self.side_effect_counter }],
      side_effect_counter := self.side_effect_counter + 1 }

/-- Embedding of `PrivateContext::push_nullifier_read_request`. -/
def PrivateContext.push_nullifier_read_request (self : PrivateContext)
    (nullifier : Nat) : PrivateContext :=
  { self with
      nullifier_read_requests := self.nullifier_read_requests
        ++ [{ value := nullifier, counter := self.side_effect_counter }],
      side_effect_counter := self.side_effect_counter + 1 }

/-- Embedding of `PrivateContext::push_encrypted_log`. -/
def PrivateContext.push_encrypted_log (self : PrivateContext) (log_hash : Nat) :
    PrivateContext :=
  { self with
      encrypted_logs_hashes := self.encrypted_logs_hashes
        ++ [{ value := log_hash, counter := self.side_effect_counter }],
      side_effect_counter := self.side_effect_counter + 1 }

/-- One invocation of an effect-recording push operation. -/
inductive PushOp where
  | noteHash (value : Nat)
  | nullifier (value nullified_note_hash : Nat)
  | noteHashRead (value : Nat)
  | nullifierRead (value : Nat)
  | encryptedLog (log_hash : Nat)
  deriving Repr, DecidableEq

/-- Run one push operation on the context. -/
def applyPush (self : PrivateContext) : PushOp → PrivateContext
  | .noteHash v => self.push_new_note_hash v
  | .nullifier v nh => self.push_new_nullifier v nh
  | .noteHashRead v => self.push_note_hash_read_request v
  | .nullifierRead v => self.push_nullifier_read_request v
  | .encryptedLog v => self.push_encrypted_log v

/-- The counter stamped on the most recently recorded effect of the list the
given operation appends to (read back from the context, default 0). -/
def lastStampedCounter (self : PrivateContext) : PushOp → Nat
  | .noteHash _ => (self.new_note_hashes.getLastD ⟨0, 0⟩).counter
  | .nullifier _ _ => (self.new_nullifiers.getLastD ⟨0, 0, 0⟩).counter
  | .noteHashRead _ => (self.note_hash_read_requests.getLastD ⟨0, 0⟩).counter
  | .nullifierRead _ => (self.nullifier_read_requests.getLastD ⟨0, 0⟩).counter
  | .encryptedLog _ => (self.encrypted_logs_hashes.getLastD ⟨0, 0⟩).counter

/-- The counters of the effects recorded by a sequence of pushes, in emission
order, each read back from the context right after its push. -/
def emittedCounters (self : PrivateContext) : List PushOp → List Nat
  | [] => []
  | op :: rest =>
      let next := applyPush self op
      lastStampedCounter next op :: emittedCounters next rest

theorem applyPush_side_effect_counter (self : PrivateContext) (op : PushOp) :
    (applyPush self op).side_effect_counter = self.side_effect_counter + 1 := by
  cases op <;> rfl

theorem lastStampedCounter_applyPush (self : PrivateContext) (op : PushOp) :
    lastStampedCounter (applyPush self op) op = self.side_effect_counter := by
  cases op <;>
    simp [applyPush, lastStampedCounter, PrivateContext.push_new_note_hash,
      PrivateContext.push_new_nullifier, PrivateContext.push_note_hash_read_request,
      PrivateContext.push_nullifier_read_request, PrivateContext.push_encrypted_log,
      List.getLastD_concat]

theorem emittedCounters_eq_range (self : PrivateContext) (ops : List PushOp) :
    emittedCounters self ops = List.range' self.side_effect_counter ops.length := by
  induction ops generalizing self with
  | nil => rfl
  | cons op rest ih =>
    simp only [emittedCounters, lastStampedCounter_applyPush, List.length_cons,
      List.range'_succ]
    rw [ih, applyPush_side_effect_counter]

/-- C8: each push operation records its element stamped with the current
side-effect counter and then increments the counter by exactly one; hence
across any sequence of pushes the recorded counters (read back from the
context after each push) are the consecutive range starting at the initial
counter — strictly increasing in emission order and pairwise distinct. -/
theorem push_counters_strictly_increasing (self : PrivateContext)
    (ops : List PushOp) :
    (∀ v, (self.push_new_note_hash v).new_note_hashes
          = self.new_note_hashes ++ [⟨v, self.side_effect_counter⟩]
        ∧ (self.push_new_note_hash v).side_effect_counter
          = self.side_effect_counter + 1)
    ∧ (∀ v nh, (self.push_new_nullifier v nh).new_nullifiers
          = self.new_nullifiers ++ [⟨v, nh, self.side_effect_counter⟩]
        ∧ (self.push_new_nullifier v nh).side_effect_counter
          = self.side_effect_counter + 1)
    ∧ (∀ v, (self.push_note_hash_read_request v).note_hash_read_requests
          = self.note_hash_read_requests ++ [⟨v, self.side_effect_counter⟩]
        ∧ (self.push_note_hash_read_request v).side_effect_counter
          = self.side_effect_counter + 1)
    ∧ (∀ v, (self.push_nullifier_read_request v).nullifier_read_requests
          = self.nullifier_read_requests ++ [⟨v, self.side_effect_counter⟩]
        ∧ (self.push_nullifier_read_request v).side_effect_counter
          = self.side_effect_counter + 1)
    ∧ (∀ v, (self.push_encrypted_log v).encrypted_logs_hashes
          = self.encrypted_logs_hashes ++ [⟨v, self.side_effect_counter⟩]
        ∧ (self.push_encrypted_log v).side_effect_counter
          = self.side_effect_counter + 1)
    ∧ emittedCounters self ops
        = List.range' self.side_effect_counter ops.length
    ∧ (emittedCounters self ops).Pairwise (· < ·)
    ∧ (emittedCounters self ops).Nodup := by
  refine ⟨fun v => ⟨rfl, rfl⟩, fun v nh => ⟨rfl, rfl⟩, fun v => ⟨rfl, rfl⟩,
    fun v => ⟨rfl, rfl⟩, fun v => ⟨rfl, rfl⟩, emittedCounters_eq_range self ops,
    ?_, ?_⟩
  · rw [emittedCounters_eq_range]
    exact List.pairwise_lt_range' _ _
  · rw [emittedCounters_eq_range]
    exact (List.pairwise_lt_range' _ _).imp Nat.ne_of_lt

/-- The `PublicCallStackItem` as constructed inside
`PrivateContext::call_public_function_with_packed_args`: only the contract
address, the function selector, the call context and the args hash are read
from the oracle's return data; everything else — in particular
`end_side_effect_counter` — is zeroed by construction. -/
structure PublicCallStackItem where
  contract_address : Nat
  function_data_selector : Nat
  call_context : CallContext
  args_hash : Nat
  end_side_effect_counter : Nat
  deriving Repr, DecidableEq

/-- Embeds `PrivateContext::call_private_function_with_packed_args`.  The item
returned by the `call_private_function_internal` oracle is the `item`
parameter; `itemHash` abstracts `PrivateCallStackItem::hash`.  Every source
`assert` gates the success branch; on success the caller's counter moves to
`item.end_side_effect_counter + 1` and the item hash is appended to the
private call stack; the packed returns value is paired with the updated
context. -/
def PrivateContext.call_private_function_with_packed_args
    (itemHash : PrivateCallStackItem → Nat) (self : PrivateContext)
    (contract_address function_selector args_hash : Nat)
    (is_static_call is_delegate_call : Bool) (item : PrivateCallStackItem) :
    Option (PrivateContext × Nat) :=
  let is_static_call := is_static_call || self.call_context.is_static_call
  if (item.public_inputs.call_context.side_effect_counter == self.side_effect_counter)
      && (item.public_inputs.start_side_effect_counter == self.side_effect_counter)
      && (contract_address == item.contract_address)
      && (function_selector == item.function_data_selector)
      && (args_hash == item.public_inputs.args_hash)
      && (item.public_inputs.call_context.is_delegate_call == is_delegate_call)
      && (item.public_inputs.call_context.is_static_call == is_static_call)
      && (if is_delegate_call then
            (item.public_inputs.call_context.storage_contract_address
                == self.call_context.storage_contract_address)
              && (item.public_inputs.call_context.msg_sender
                    == self.call_context.msg_sender)
          else
            (item.public_inputs.call_context.storage_contract_address
                == contract_address)
              && (item.public_inputs.call_context.msg_sender
                    == self.call_context.storage_contract_address)) then
    some ({ self with
        side_effect_counter := item.public_inputs.end_side_effect_counter + 1,
        private_call_stack_hashes :=
          self.private_call_stack_hashes ++ [itemHash item] },
      item.public_inputs.returns_hash)
  else
    none

/-- Embeds `PrivateContext::call_public_function_with_packed_args`.  The four
`oracle_*` parameters are the fields the `enqueue_public_function_call`
oracle's return data is read into; the constructed item zeroes every other
field, in particular `end_side_effect_counter`.  On success the caller's
counter is incremented by one (the enqueue itself is a side effect) and the
item hash is appended to the public call stack; the constructed item is
returned alongside the updated context. -/
def PrivateContext.call_public_function_with_packed_args
    (itemHashPub : PublicCallStackItem → Nat) (self : PrivateContext)
    (contract_address function_selector args_hash : Nat)
    (is_static_call is_delegate_call : Bool)
    (oracle_contract_address oracle_function_selector : Nat)
    (oracle_call_context : CallContext) (oracle_args_hash : Nat) :
    Option (PrivateContext × PublicCallStackItem) :=
  let is_static_call := is_static_call || self.call_context.is_static_call
  let item : PublicCallStackItem :=
    { contract_address := oracle_contract_address,
      function_data_selector := oracle_function_selector,
      call_context := oracle_call_context,
      args_hash := oracle_args_hash,
      end_side_effect_counter := 0 }
  if (contract_address == item.contract_address)
      && (function_selector == item.function_data_selector)
      && (item.call_context.side_effect_counter == self.side_effect_counter)
      && (args_hash == item.args_hash)
      && (item.call_context.is_delegate_call == is_delegate_call)
      && (item.call_context.is_static_call == is_static_call)
      && (if is_delegate_call then
            (item.call_context.storage_contract_address
                == self.call_context.storage_contract_address)
              && (item.call_context.msg_sender == self.call_context.msg_sender)
          else
            (item.call_context.storage_contract_address == contract_address)
              && (item.call_context.msg_sender
                    == self.call_context.storage_contract_address)) then
    some ({ self with
        side_effect_counter := self.side_effect_counter + 1,
        public_call_stack_hashes :=
          self.public_call_stack_hashes ++ [itemHashPub item] },
      item)
  else
    none

/-- C7: every successful nested call through the tracker leaves the caller's
side-effect counter strictly greater than the callee item's end side-effect
counter: a private call resumes at the callee's end counter plus one, and a
public enqueue advances past the constructed item's (zero) end counter. -/
theorem nested_calls_advance_counter_past_callee :
    (∀ (itemHash : PrivateCallStackItem → Nat) (self : PrivateContext)
        (contract_address function_selector args_hash : Nat)
        (is_static_call is_delegate_call : Bool) (item : PrivateCallStackItem)
        (ctx : PrivateContext) (returns_hash : Nat),
      PrivateContext.call_private_function_with_packed_args itemHash self
          contract_address function_selector args_hash is_static_call
          is_delegate_call item = some (ctx, returns_hash) →
        item.public_inputs.end_side_effect_counter < ctx.side_effect_counter)
    ∧ (∀ (itemHashPub : PublicCallStackItem → Nat) (self : PrivateContext)
        (contract_address function_selector args_hash : Nat)
        (is_static_call is_delegate_call : Bool)
        (oracle_contract_address oracle_function_selector : Nat)
        (oracle_call_context : CallContext) (oracle_args_hash : Nat)
        (ctx : PrivateContext) (item : PublicCallStackItem),
      PrivateContext.call_public_function_with_packed_args itemHashPub self
          contract_address function_selector args_hash is_static_call
          is_delegate_call oracle_contract_address oracle_function_selector
          oracle_call_context oracle_args_hash = some (ctx, item) →
        item.end_side_effect_counter < ctx.side_effect_counter) := by
  constructor
  · intro itemHash self ca fs ah st dl item ctx r hok
    unfold PrivateContext.call_private_function_with_packed_args at hok
    rw [Option.ite_none_right_eq_some, Option.some.injEq] at hok
    have hctx := congrArg Prod.fst hok.2
    simp only at hctx
    rw [← hctx]
    exact Nat.lt_succ_self _
  · intro itemHashPub self ca fs ah st dl oca ofs occ oah ctx item hok
    unfold PrivateContext.call_public_function_with_packed_args at hok
    rw [Option.ite_none_right_eq_some, Option.some.injEq] at hok
    have hctx := congrArg Prod.fst hok.2
    have hitem := congrArg Prod.snd hok.2
    simp only at hctx hitem
    rw [← hctx, ← hitem]
    exact Nat.succ_pos _

/-- C10: a nested call accepted by the tracker carries the effective static
flag, the disjunction of the requested flag with the parent context's static
flag; in particular a static parent can only issue static nested calls. -/
theorem nested_calls_force_static_flag :
    (∀ (itemHash : PrivateCallStackItem → Nat) (self : PrivateContext)
        (contract_address function_selector args_hash : Nat)
        (is_static_call is_delegate_call : Bool) (item : PrivateCallStackItem)
        (ctx : PrivateContext) (returns_hash : Nat),
      PrivateContext.call_private_function_with_packed_args itemHash self
          contract_address function_selector args_hash is_static_call
          is_delegate_call item = some (ctx, returns_hash) →
        item.public_inputs.call_context.is_static_call
            = (is_static_call || self.call_context.is_static_call)
        ∧ (self.call_context.is_static_call = true →
            item.public_inputs.call_context.is_static_call = true))
    ∧ (∀ (itemHashPub : PublicCallStackItem → Nat) (self : PrivateContext)
        (contract_address function_selector args_hash : Nat)
        (is_static_call is_delegate_call : Bool)
        (oracle_contract_address oracle_function_selector : Nat)
        (oracle_call_context : CallContext) (oracle_args_hash : Nat)
        (ctx : PrivateContext) (item : PublicCallStackItem),
      PrivateContext.call_public_function_with_packed_args itemHashPub self
          contract_address function_selector args_hash is_static_call
          is_delegate_call oracle_contract_address oracle_function_selector
          oracle_call_context oracle_args_hash = some (ctx, item) →
        item.call_context.is_static_call
            = (is_static_call || self.call_context.is_static_call)
        ∧ (self.call_context.is_static_call = true →
            item.call_context.is_static_call = true)) := by
  constructor
  · intro itemHash self ca fs ah st dl item ctx r hok
    unfold PrivateContext.call_private_function_with_packed_args at hok
    rw [Option.ite_none_right_eq_some] at hok
    have hcond := hok.1
    simp only [Bool.and_eq_true, beq_iff_eq] at hcond
    have hflag := hcond.1.2
    refine ⟨hflag, fun hstatic => ?_⟩
    rw [hflag, hstatic, Bool.or_true]
  · intro itemHashPub self ca fs ah st dl oca ofs occ oah ctx item hok
    unfold PrivateContext.call_public_function_with_packed_args at hok
    rw [Option.ite_none_right_eq_some, Option.some.injEq] at hok
    have hcond := hok.1
    simp only [Bool.and_eq_true, beq_iff_eq] at hcond
    have hflag := hcond.1.2
    have hitem := congrArg Prod.snd hok.2
    simp only at hitem
    rw [← hitem]
    refine ⟨hflag, fun hstatic => ?_⟩
    rw [hflag, hstatic, Bool.or_true]

/-- A concrete tracker context used by the witnesses: a non-static,
non-delegate invocation of contract 2 called by contract 1, with the
side-effect counter at 5. -/
def trackerExampleContext : PrivateContext :=
  { call_context :=
      { msg_sender := 1, storage_contract_address := 2,
        is_delegate_call := false, is_static_call := false,
        side_effect_counter := 0 },
    side_effect_counter := 5, min_revertible_side_effect_counter := 0,
    note_hash_read_requests := [], nullifier_read_requests := [],
    nullifier_key_validation_requests := [], new_note_hashes := [],
    new_nullifiers := [], private_call_stack_hashes := [],
    public_call_stack_hashes := [], encrypted_logs_hashes := [],
    unencrypted_logs_hashes := [], nullifier_key := none }

/-- A callee item consistent with `trackerExampleContext` calling contract 3,
selector 4, args hash 9, with execution window 5..8. -/
def trackerExampleItem : PrivateCallStackItem :=
  { contract_address := 3, function_data_selector := 4,
    public_inputs :=
      { call_context :=
          { msg_sender := 2, storage_contract_address := 3,
            is_delegate_call := false, is_static_call := false,
            side_effect_counter := 5 },
        args_hash := 9, returns_hash := 0, new_note_hashes := [],
        new_nullifiers := [], private_call_stack_hashes := [],
        public_call_stack_hashes := [], new_l2_to_l1_msgs := [],
        start_side_effect_counter := 5, end_side_effect_counter := 8,
        encrypted_log_preimages_length := 4,
        unencrypted_log_preimages_length := 4 } }

/-- The tracker context after the private call of `trackerExampleItem`. -/
def trackerAfterPrivateCall : PrivateContext :=
  { trackerExampleContext with
      side_effect_counter := 9, private_call_stack_hashes := [0] }

/-- The call context the enqueue oracle reports for the public-call witness. -/
def trackerPublicCallContext : CallContext :=
  { msg_sender := 2, storage_contract_address := 3, is_delegate_call := false,
    is_static_call := false, side_effect_counter := 5 }

/-- The constructed public call-stack item of the public-call witness. -/
def trackerPublicItem : PublicCallStackItem :=
  { contract_address := 3, function_data_selector := 4,
    call_context := trackerPublicCallContext, args_hash := 9,
    end_side_effect_counter := 0 }

/-- The tracker context after the public enqueue of `trackerPublicItem`. -/
def trackerAfterPublicCall : PrivateContext :=
  { trackerExampleContext with
      side_effect_counter := 6, public_call_stack_hashes := [0] }

/-- Witness for C7: both nested-call operations run on concrete inputs, the
theorem applied to each. -/
theorem nested_calls_advance_counter_past_callee_witness :
    trackerExampleItem.public_inputs.end_side_effect_counter
        < trackerAfterPrivateCall.side_effect_counter
    ∧ trackerPublicItem.end_side_effect_counter
        < trackerAfterPublicCall.side_effect_counter := by
  constructor
  · exact nested_calls_advance_counter_past_callee.1 (fun _ => 0)
      trackerExampleContext 3 4 9 false false trackerExampleItem
      trackerAfterPrivateCall 0 (by decide)
  · exact nested_calls_advance_counter_past_callee.2 (fun _ => 0)
      trackerExampleContext 3 4 9 false false 3 4 trackerPublicCallContext 9
      trackerAfterPublicCall trackerPublicItem (by decide)

/-- A static parent context: `trackerExampleContext` with the static flag
set. -/
def staticParentContext : PrivateContext :=
  { trackerExampleContext with
      call_context :=
        { msg_sender := 1, storage_contract_address := 2,
          is_delegate_call := false, is_static_call := true,
          side_effect_counter := 0 } }

/-- A callee item consistent with `staticParentContext` requesting a
non-static nested call: the effective flag is forced to static. -/
def staticExampleItem : PrivateCallStackItem :=
  { contract_address := 3, function_data_selector := 4,
    public_inputs :=
      { call_context :=
          { msg_sender := 2, storage_contract_address := 3,
            is_delegate_call := false, is_static_call := true,
            side_effect_counter := 5 },
        args_hash := 9, returns_hash := 0, new_note_hashes := [],
        new_nullifiers := [], private_call_stack_hashes := [],
        public_call_stack_hashes := [], new_l2_to_l1_msgs := [],
        start_side_effect_counter := 5, end_side_effect_counter := 8,
        encrypted_log_preimages_length := 4,
        unencrypted_log_preimages_length := 4 } }

/-- The static parent context after the nested call of `staticExampleItem`. -/
def staticAfterPrivateCall : PrivateContext :=
  { staticParentContext with
      side_effect_counter := 9, private_call_stack_hashes := [0] }

/-- Witness for C10: a static parent requests a non-static nested call; the
accepted child is nevertheless static, by the theorem. -/
theorem nested_calls_force_static_flag_witness :
    staticExampleItem.public_inputs.call_context.is_static_call = true :=
  (nested_calls_force_static_flag.1 (fun _ => 0) staticParentContext 3 4 9
    false false staticExampleItem staticAfterPrivateCall 0 (by decide)).2 rfl

/-- Modelled from the spec: the constant
`MAX_NULLIFIER_KEY_VALIDATION_REQUESTS_PER_CALL` lives in the `types` crate's
constants file; the spec pins the per-invocation key-request capacity at 1. -/
def MAX_NULLIFIER_KEY_VALIDATION_REQUESTS_PER_CALL : Nat := 1

/-- Embeds `PrivateContext::request_app_nullifier_secret_key`.  The
`get_nullifier_keys` oracle of `aztec-nr` is a function parameter.  On the
first call the fetched key material is cached and one key-validation request
is recorded; on later calls the source asserts the capacity constant is 1 and
that the cached account matches, returning the cached secret without touching
the request vector. -/
def PrivateContext.request_app_nullifier_secret_key
    (get_nullifier_keys : Nat → NullifierKeys) (self : PrivateContext)
    (account : Nat) : Option (Nat × PrivateContext) :=
  match self.nullifier_key with
  | none =>
      let keys := get_nullifier_keys account
      let request : NullifierKeyValidationRequest :=
        { master_nullifier_public_key := keys.master_nullifier_public_key,
          app_nullifier_secret_key := keys.app_nullifier_secret_key }
      some (keys.app_nullifier_secret_key,
        { self with
            nullifier_key_validation_requests :=
              self.nullifier_key_validation_requests ++ [request],
            nullifier_key := some keys })
  | some keys =>
      if (MAX_NULLIFIER_KEY_VALIDATION_REQUESTS_PER_CALL == 1)
          && (keys.account == account) then
        some (keys.app_nullifier_secret_key, self)
      else
        none

/-- C9: from a fresh context the first key request for `account` succeeds,
caches the oracle's key material and records exactly one key-validation
request; a repeated request for the same account returns the cached secret on
the unchanged context (no additional request), and a request for any other
account in the same invocation fails. -/
theorem request_app_nullifier_secret_key_cache
    (get_nullifier_keys : Nat → NullifierKeys) (self : PrivateContext)
    (account other_account : Nat) (hfresh : self.nullifier_key = none)
    (horacle : (get_nullifier_keys account).account = account) :
    ∃ ctx1,
      PrivateContext.request_app_nullifier_secret_key get_nullifier_keys self
          account
        = some ((get_nullifier_keys account).app_nullifier_secret_key, ctx1)
      ∧ ctx1.nullifier_key_validation_requests
          = self.nullifier_key_validation_requests
            ++ [{ master_nullifier_public_key :=
                    (get_nullifier_keys account).master_nullifier_public_key,
                  app_nullifier_secret_key :=
                    (get_nullifier_keys account).app_nullifier_secret_key }]
      ∧ ctx1.nullifier_key = some (get_nullifier_keys account)
      ∧ PrivateContext.request_app_nullifier_secret_key get_nullifier_keys ctx1
          account
        = some ((get_nullifier_keys account).app_nullifier_secret_key, ctx1)
      ∧ (other_account ≠ account →
          PrivateContext.request_app_nullifier_secret_key get_nullifier_keys
            ctx1 other_account = none) := by
  refine ⟨{ self with
      nullifier_key_validation_requests :=
        self.nullifier_key_validation_requests
          ++ [{ master_nullifier_public_key :=
                  (get_nullifier_keys account).master_nullifier_public_key,
                app_nullifier_secret_key :=
                  (get_nullifier_keys account).app_nullifier_secret_key }],
      nullifier_key := some (get_nullifier_keys account) }, ?_, rfl, rfl, ?_, ?_⟩
  · unfold PrivateContext.request_app_nullifier_secret_key
    rw [hfresh]
  · unfold PrivateContext.request_app_nullifier_secret_key
    simp only [MAX_NULLIFIER_KEY_VALIDATION_REQUESTS_PER_CALL, horacle,
      beq_self_eq_true, Bool.and_self, if_true]
  · intro hne
    unfold PrivateContext.request_app_nullifier_secret_key
    simp only [MAX_NULLIFIER_KEY_VALIDATION_REQUESTS_PER_CALL, horacle,
      beq_self_eq_true, Bool.true_and]
    rw [if_neg]
    simp only [beq_iff_eq]
    exact fun h => hne h.symm

/-- Witness for C9: a concrete oracle and fresh context, the theorem applied
at accounts 1 (cached) and 2 (rejected). -/
theorem request_app_nullifier_secret_key_cache_witness :
    ∃ ctx1,
      PrivateContext.request_app_nullifier_secret_key
          (fun a => { account := a, master_nullifier_public_key := a + 10,
                      app_nullifier_secret_key := a + 20 })
          trackerExampleContext 1
        = some (21, ctx1)
      ∧ ctx1.nullifier_key_validation_requests = [⟨11, 21⟩]
      ∧ ctx1.nullifier_key = some ⟨1, 11, 21⟩
      ∧ PrivateContext.request_app_nullifier_secret_key
          (fun a => { account := a, master_nullifier_public_key := a + 10,
                      app_nullifier_secret_key := a + 20 }) ctx1 1
        = some (21, ctx1)
      ∧ (2 ≠ 1 →
          PrivateContext.request_app_nullifier_secret_key
            (fun a => { account := a, master_nullifier_public_key := a + 10,
                        app_nullifier_secret_key := a + 20 }) ctx1 2 = none) := by
  have h := request_app_nullifier_secret_key_cache
    (fun a => { account := a, master_nullifier_public_key := a + 10,
                app_nullifier_secret_key := a + 20 })
    trackerExampleContext 1 2 rfl rfl
  simpa using h

end AztecKernel
